import Mathlib

/-!
Verification development for the tty-slide terminal slideshow program.

Each definition below is a shallow embedding of a function or code region of
the TypeScript source (src/unnamed/part_000).  Effectful code is embedded as
explicit state passing (file system, animation state) or as a step relation
driven by an environment of collaborator outcomes; JS numbers appearing in
integer positions are embedded as Nat, and the single floating-point
comparison (terminal aspect ratio against 2.5) is embedded as the exact
rational comparison it computes for terminal-sized inputs.
-/

/-! ## Resilient fetch: the retry loop of WaifuFetcher.fetchRandomImage and
PexelsFetcher.fetchRandomImage (part_000 lines 465-535 and 592-657).

The two loops are textually identical: `for (let attempt = 1; attempt <=
config.maxRetries; attempt++) { try { ...one attempt... } catch { if (attempt
=== config.maxRetries) return null; delay = min(1000 * 2^(attempt-1), 10000);
sleep(delay); } } return null;`.

An attempt is embedded as an oracle `outcomes : Nat -> Option A`: `some v`
models the attempt returning a value, `none` models the attempt throwing
(network error, timeout abort, bad HTTP status, missing image in the
response).  The loop is embedded structurally on the number of remaining
iterations so that it evaluates on concrete inputs; the catch-all `catch`
block of the source is reflected in the embedding being a total function:
no attempt outcome can escape it. -/

/-- Trace of one resilient-fetch invocation: the returned value (`none`
embeds the `null` returned on exhaustion), how many attempts ran, and the
inter-attempt delays in order. -/
structure RetryTrace (α : Type) where
  result : Option α
  attempts : Nat
  delays : List Nat
deriving Repr, DecidableEq

/-- The backoff delay computed in the catch block:
`Math.min(1000 * Math.pow(2, attempt - 1), 10000)` (attempt is 1-indexed). -/
def backoffDelay (attempt : Nat) : Nat :=
  min (1000 * 2 ^ (attempt - 1)) 10000

/-- The retry for-loop body, recursing on the number of loop iterations that
remain (`fuel = maxRetries + 1 - attempt`); fuel 0 is the loop condition
`attempt <= maxRetries` failing, after which the source returns `null`. -/
def retryGo {α : Type} (outcomes : Nat → Option α) (maxRetries : Nat) :
    Nat → Nat → RetryTrace α
  | _, 0 => { result := none, attempts := 0, delays := [] }
  | attempt, fuel + 1 =>
    match outcomes attempt with
    | some v => { result := some v, attempts := 1, delays := [] }
    | none =>
      if attempt = maxRetries then
        { result := none, attempts := 1, delays := [] }
      else
        let rest := retryGo outcomes maxRetries (attempt + 1) fuel
        { result := rest.result, attempts := rest.attempts + 1,
          delays := backoffDelay attempt :: rest.delays }

/-- The whole retry loop of `fetchRandomImage`, starting at attempt 1 with
`maxRetries` loop iterations available. -/
def fetchRandomImageLoop {α : Type} (outcomes : Nat → Option α)
    (maxRetries : Nat) : RetryTrace α :=
  retryGo outcomes maxRetries 1 maxRetries

/-! ## Key decoder: KeyboardHandler.parseKeyPress (part_000 lines 1228-1262).

A raw input buffer is embedded as a `List Nat` of byte values.  The read loop
hands `parseKeyPress` the slice `buffer.slice(0, nread)` of a 3-byte buffer,
so buffers seen by the function have length at most 3. -/

/-- Embedding of `KeyboardHandler.parseKeyPress`.  The source switches on the
single byte (with `String.fromCharCode(b).toLowerCase()` in the default
printable branch) and then handles `length >= 3` escape sequences. -/
def parseKeyPress (buffer : List Nat) : Option String :=
  match buffer with
  | [] => none
  | [b] =>
    if b = 27 then some "escape"
    else if b = 32 then some "space"
    else if b = 13 then some "enter"
    else if b = 127 then some "backspace"
    else if b = 3 then some "ctrl+c"
    else if 32 ≤ b ∧ b ≤ 126 then
      some (String.singleton (Char.toLower (Char.ofNat b)))
    else none
  | b0 :: b1 :: b2 :: _ =>
    if b0 = 27 ∧ b1 = 91 then
      if b2 = 65 then some "arrow-up"
      else if b2 = 66 then some "arrow-down"
      else if b2 = 67 then some "arrow-right"
      else if b2 = 68 then some "arrow-left"
      else none
    else none
  | _ => none

/-- Key mapping written from the words of the claim (refinement spec, to be
compared with `parseKeyPress`): the five named single bytes, lowercase for any
other single byte in 32..126, arrows exactly for the three-byte sequences
27,91,X with X in 65..68, and no match for every other buffer shape. -/
def claimKeyMap (buffer : List Nat) : Option String :=
  match buffer with
  | [b] =>
    if b = 27 then some "escape"
    else if b = 32 then some "space"
    else if b = 13 then some "enter"
    else if b = 127 then some "backspace"
    else if b = 3 then some "ctrl+c"
    else if 32 ≤ b ∧ b ≤ 126 then
      some (String.singleton (Char.toLower (Char.ofNat b)))
    else none
  | [b0, b1, b2] =>
    if b0 = 27 ∧ b1 = 91 then
      if b2 = 65 then some "arrow-up"
      else if b2 = 66 then some "arrow-down"
      else if b2 = 67 then some "arrow-right"
      else if b2 = 68 then some "arrow-left"
      else none
    else none
  | _ => none

/-! ## Sizing engine: the dimension computation of ImageProcessor.displayImage
(part_000 lines 906-925). -/

/-- Which jp2a dimension flag the sizing computation selects:
`byHeight` embeds pushing `--height=availableHeight`,
`byWidth` embeds pushing `--width=availableWidth`. -/
inductive SizeMode where
  | byWidth
  | byHeight
deriving Repr, DecidableEq

/-- Embedding of the sizing block of `displayImage`:
`reservedLines = 3`, `availableHeight = max(10, rows - reservedLines)`,
`availableWidth = max(40, columns - 4)`,
`terminalAspectRatio = availableWidth / availableHeight`, constrain by height
when `terminalAspectRatio > 2.5` and by width otherwise.  The float comparison
`availableWidth / availableHeight > 2.5` is embedded exactly as the rational
comparison `2 * availableWidth > 5 * availableHeight` (availableHeight is at
least 10, so the division is by a positive number; for terminal-sized inputs
double rounding cannot cross the 2.5 threshold).  JS `rows - 3` can be
negative but is clamped by the max, which Nat subtraction reproduces. -/
def displaySizing (columns rows : Nat) : SizeMode × Nat :=
  let reservedLines := 3
  let availableHeight := max 10 (rows - reservedLines)
  let availableWidth := max 40 (columns - 4)
  if 5 * availableHeight < 2 * availableWidth then
    (SizeMode.byHeight, availableHeight)
  else
    (SizeMode.byWidth, availableWidth)

/-! ## Loading animation: the static state of class LoadingAnimation
(part_000 lines 788-839).

The class state is `isRunning`, `intervalId` (a live timer handle or null) and
`currentFrame`; the displayed message is captured by the closure passed to
`setInterval`, so it is part of the running timer.  The embedding carries the
captured message and counts live timers (`setInterval` creates one,
`clearInterval` removes it). -/

/-- State of the `LoadingAnimation` static class: running flag, current frame
index, the message captured by the active interval closure, and the number of
live timers. -/
structure AnimState where
  isRunning : Bool
  currentFrame : Nat
  message : String
  timers : Nat
deriving Repr, DecidableEq

namespace LoadingAnimation

/-- Initial static state: not running, no timer. -/
def init : AnimState :=
  { isRunning := false, currentFrame := 0, message := "", timers := 0 }

/-- Embedding of `LoadingAnimation.start(message)`: `if (this.isRunning)
return;` then set the flag, reset the frame index and spawn the interval
timer whose closure captures `message`. -/
def start (message : String) (s : AnimState) : AnimState :=
  if s.isRunning then s
  else
    { isRunning := true, currentFrame := 0, message := message,
      timers := s.timers + 1 }

/-- Embedding of `LoadingAnimation.stop()`: `if (!this.isRunning) return;`
then clear the flag and `clearInterval` the timer. -/
def stop (s : AnimState) : AnimState :=
  if !s.isRunning then s
  else { s with isRunning := false, timers := s.timers - 1 }

/-- Embedding of `LoadingAnimation.updateMessage(_message)`: the body consists
only of comments, so the state is returned unchanged. -/
def updateMessage (_message : String) (s : AnimState) : AnimState := s

end LoadingAnimation

/-! ## Persistence: ImageProcessor.saveImage (part_000 lines 1055-1117).

The file system is embedded as an association list of file paths to byte
contents plus the set of directories created; `Deno.stat` succeeding is
embedded as a successful lookup, `Deno.writeFile` as prepending the new file,
`Deno.mkdir(dir, recursive)` as inserting the directory if absent.
`Date.now()` (used only in the fallback file names for URLs whose last `/`
segment is empty) is passed in as the parameter `now`. -/

/-- Embedding of the `SlideImage` interface.  Optional JS fields that the save
path computation reads with falsy defaults (`tags`, `isNsfw`) are embedded
with those defaults. -/
structure SlideImage where
  url : String
  source : String
  caption : Option String := none
  artist : Option String := none
  tags : List String := []
  description : Option String := none
  isNsfw : Bool := false
deriving Repr, DecidableEq

/-- The hard-coded lowercase tag list that marks a waifu image NSFW in
`saveImage`. -/
def nsfwTagList : List String :=
  ["ass", "hentai", "milf", "oral", "paizuri", "ecchi", "ero"]

/-- Embedding of JS `s.split(sep)` for a one-character separator, on the
character list underlying the string: every separator occurrence splits,
empty segments are kept, and the empty string yields one empty segment. -/
def jsSplitChar (sep : Char) : List Char → List (List Char)
  | [] => [[]]
  | c :: cs =>
    if c = sep then [] :: jsSplitChar sep cs
    else
      match jsSplitChar sep cs with
      | [] => [[c]]
      | w :: ws => (c :: w) :: ws

/-- JS `s.split(sep)` producing strings again. -/
def jsSplitStr (sep : Char) (s : String) : List String :=
  (jsSplitChar sep s.data).map (fun l => String.mk l)

/-- JS `s.toLowerCase()` (ASCII range, which is all the tag lists use). -/
def jsToLower (s : String) : String := String.mk (s.data.map Char.toLower)

/-- JS `urlParts[urlParts.length - 1] || dflt`: the last split segment, or the
default when that segment is the empty string (falsy). -/
def lastOr (parts : List String) (dflt : String) : String :=
  match parts.getLast? with
  | none => dflt
  | some s => if s = "" then dflt else s

/-- JS `fileName.split("?")[0]`. -/
def stripQuery (s : String) : String := (jsSplitStr '?' s).headD s

/-- JS `if (!fileName.includes(".")) fileName += ".jpg"`. -/
def ensureExt (s : String) : String :=
  if s.data.contains '.' then s else s ++ ".jpg"

/-- The `fileName`/`subDir` computation of `saveImage`, per source branch. -/
def computeFileNameSubDir (img : SlideImage) (now : Nat) : String × String :=
  if img.source = "pexels" then
    let urlParts := jsSplitStr '/' img.url
    let rawFileName := lastOr urlParts ("pexels-" ++ toString now ++ ".jpg")
    let fileName := ensureExt (stripQuery rawFileName)
    (fileName, "pexels")
  else if img.source = "waifu" then
    let urlParts := jsSplitStr '/' img.url
    let rawFileName := lastOr urlParts ("waifu-" ++ toString now ++ ".jpg")
    let fileName := ensureExt (stripQuery rawFileName)
    let isNsfw := img.isNsfw ||
      img.tags.any (fun tag => nsfwTagList.contains (jsToLower tag))
    (fileName, "waifus/" ++ (if isNsfw then "NSFW" else "SFW"))
  else
    let urlParts := jsSplitStr '/' img.url
    let rawFileName := lastOr urlParts ("slide-" ++ toString now ++ ".jpg")
    let fileName := ensureExt (stripQuery rawFileName)
    (fileName, img.source)

/-- JS `const fullDir = subDir ? outputDir + "/" + subDir : outputDir`. -/
def computeFullDir (img : SlideImage) (outputDir : String) (now : Nat) :
    String :=
  let subDir := (computeFileNameSubDir img now).2
  if subDir = "" then outputDir else outputDir ++ "/" ++ subDir

/-- The destination path `fullDir + "/" + fileName` of `saveImage`. -/
def computeSavePath (img : SlideImage) (outputDir : String) (now : Nat) :
    String :=
  computeFullDir img outputDir now ++ "/" ++ (computeFileNameSubDir img now).1

/-- Embedded file system: saved files (path to byte contents) and created
directories. -/
structure FileSystem where
  files : List (String × List Nat)
  dirs : List String
deriving Repr, DecidableEq

/-- Embedding of `Deno.mkdir(d, { recursive: true })`: creating an existing
directory changes nothing.  (Implied parent directories are not tracked
separately; their creation is idempotent as well.) -/
def mkdirRec (d : String) (fs : FileSystem) : FileSystem :=
  if fs.dirs.contains d then fs else { fs with dirs := d :: fs.dirs }

/-- Embedding of `ImageProcessor.saveImage(buffer, slideImage, outputDir)`:
compute the destination path, create the directory, then
`try { await Deno.stat(savePath) } catch { await Deno.writeFile(savePath,
buffer) }` — write only when the stat fails because no file exists there. -/
def saveImage (buffer : List Nat) (img : SlideImage) (outputDir : String)
    (now : Nat) (fs : FileSystem) : FileSystem :=
  let savePath := computeSavePath img outputDir now
  let fs1 := mkdirRec (computeFullDir img outputDir now) fs
  if (fs1.files.lookup savePath).isSome then fs1
  else { fs1 with files := (savePath, buffer) :: fs1.files }

/-! ## Word wrapping: TerminalUtils.wrapText (part_000 lines 1138-1154).

JS strings are embedded as `List Char` (one entry per UTF-16 code unit for
the inputs of interest), so that `text.split(" ")`, string concatenation and
`.length` can be reasoned about structurally. -/

/-- Embedding of JS `text.split(" ")` on char lists: splitting on every
single space character, keeping empty segments, and returning one (possibly
empty) segment for the empty string. -/
def jsSplitSpace : List Char → List (List Char)
  | [] => [[]]
  | c :: cs =>
    if c = ' ' then [] :: jsSplitSpace cs
    else
      match jsSplitSpace cs with
      | [] => [[c]]
      | w :: ws => (c :: w) :: ws

/-- The word loop of `wrapText`: for each word, either extend `currentLine`
(JS `currentLine ? currentLine + " " + word : word`) when
`(currentLine + " " + word).length <= width`, or push the non-empty
`currentLine` and start over from `word`; after the loop, push the final
non-empty `currentLine`. -/
def wrapLoop (width : Nat) :
    List (List Char) → List (List Char) → List Char → List (List Char)
  | [], lines, cur => if cur = [] then lines else lines ++ [cur]
  | w :: ws, lines, cur =>
    if (cur ++ ' ' :: w).length ≤ width then
      wrapLoop width ws lines (if cur = [] then w else cur ++ ' ' :: w)
    else
      wrapLoop width ws (if cur = [] then lines else lines ++ [cur]) w

/-- Embedding of `TerminalUtils.wrapText(text, width)`. -/
def wrapText (text : List Char) (width : Nat) : List (List Char) :=
  wrapLoop width (jsSplitSpace text) [] []

/-! ## Interval progress bar: TTYSlide.handleProgressBarWithControls
(part_000 lines 1514-1578).

The loop is `while (currentUpdate <= totalUpdates && isRunning &&
!skipRequested) { draw; if (isPaused) { while (isPaused && ...) await
sleep(100); } else { currentUpdate++; if (currentUpdate <= totalUpdates)
await sleep(100); } }` with `totalUpdates = intervalSeconds * 1000 / 100`.

Single-threaded cooperative scheduling: `isPaused` can change only at awaits
(the progress-bar write and the 100ms sleeps), so the embedding reads the
flag from a schedule `pausedAt : Nat -> Bool` indexed by the number of awaits
completed so far, and two reads with no await between them see the same
value.  The claim concerns pause/resume, so `isRunning` stays true and
`skipRequested` stays false throughout.  Each loop pass is one machine step
(`pbStep`); the inner pause-wait loop is a separate phase whose steps are its
100ms sleeps.  The machine is run with fuel, since an always-paused schedule
never terminates. -/

/-- Program point of the progress-bar loop: at the top of the outer while
loop, or inside the inner pause-wait loop. -/
inductive PBPhase where
  | outer
  | inner
deriving Repr, DecidableEq

/-- State of the progress-bar loop: the program point, the `currentUpdate`
counter, elapsed awaits (the schedule index), the drawn frames as pairs of
(counter value, paused glyph shown), and counts of 100ms sleeps and counter
advances. -/
structure PBState where
  phase : PBPhase
  currentUpdate : Nat
  time : Nat
  draws : List (Nat × Bool)
  sleeps : Nat
  advances : Nat
deriving Repr, DecidableEq

/-- `totalUpdates = (intervalSeconds * 1000) / updateInterval` with the 100ms
update interval (exact division in JS for whole-second intervals). -/
def pbTotalUpdates (intervalSeconds : Nat) : Nat :=
  intervalSeconds * 1000 / 100

/-- One step of the progress-bar machine: `none` means the outer while
condition failed and the loop exited.  An outer step draws the bar (reading
the pause flag for the glyph), awaits the write, re-reads the pause flag for
the branch, and either enters the pause-wait phase or advances the counter
(sleeping 100ms unless the counter just passed `totalUpdates`).  An inner
step re-reads the flag and either sleeps 100ms or returns to the outer
loop. -/
def pbStep (pausedAt : Nat → Bool) (totalUpdates : Nat) (s : PBState) :
    Option PBState :=
  match s.phase with
  | PBPhase.outer =>
    if s.currentUpdate ≤ totalUpdates then
      let glyphPaused := pausedAt s.time
      let s1 : PBState :=
        { s with draws := s.draws ++ [(s.currentUpdate, glyphPaused)],
                 time := s.time + 1 }
      if pausedAt s1.time then
        some { s1 with phase := PBPhase.inner }
      else
        let cu := s1.currentUpdate + 1
        if cu ≤ totalUpdates then
          some { s1 with
                 currentUpdate := cu, advances := s1.advances + 1,
                 time := s1.time + 1, sleeps := s1.sleeps + 1 }
        else
          some { s1 with currentUpdate := cu, advances := s1.advances + 1 }
    else none
  | PBPhase.inner =>
    if pausedAt s.time then
      some { s with time := s.time + 1, sleeps := s.sleeps + 1 }
    else some { s with phase := PBPhase.outer }

/-- Run the progress-bar machine until the loop exits (returning the final
state) or the fuel runs out (`none`). -/
def pbRun (pausedAt : Nat → Bool) (totalUpdates : Nat) :
    Nat → PBState → Option PBState
  | 0, _ => none
  | fuel + 1, s =>
    match pbStep pausedAt totalUpdates s with
    | none => some s
    | some s2 => pbRun pausedAt totalUpdates fuel s2

/-- State at the start of `handleProgressBarWithControls`:
`currentUpdate = 0`, nothing drawn yet. -/
def pbInit : PBState :=
  { phase := PBPhase.outer, currentUpdate := 0, time := 0, draws := [],
    sleeps := 0, advances := 0 }

/-! ## One iteration of the main loop: TTYSlide.run (part_000 lines
1373-1499).

One pass of the `while (this.isRunning)` body is embedded as a function from
an environment of collaborator outcomes and control-flag readings to the
sequence of observable actions of that pass.  The body up to the outer
`catch` is `runIterationBody`, returning the actions together with whether an
exception escaped to the outer catch; `runIteration` adds the outer catch
handling (stop animation, log, sleep 5000).  Either way the iteration
finishes and the `while` loop proceeds to its next pass, which starts with
the flag reset and the Fetching spinner. -/

/-- Observable actions of one main-loop iteration. -/
inductive Event where
  | spinnerStartCall (msg : String)
  | spinnerStop
  | clearScreen
  | headerShown
  | renderCall
  | errorPanel
  | captionShown
  | saveCall
  | progressBar
  | sleepMs (ms : Nat)
  | logError
  | logWarn
deriving Repr, DecidableEq

/-- Outcome of the jp2a invocation inside `displayImage`: success, a failure
whose message contains "jp2a failed" (non-zero exit code), or any other
exception from that block. -/
inductive RenderOutcome where
  | ok
  | jp2aFail
  | otherFail
deriving Repr, DecidableEq

/-- The configuration fields that the iteration body branches on. -/
structure ConfigModel where
  caption : Bool
  noSave : Bool
deriving Repr, DecidableEq

/-- Collaborator outcomes and control-flag readings for one iteration:
whether the source resolves to a fetcher, the fetch result, the
`skipRequested` readings at the two phase-boundary checks, whether the
download succeeds (a failed download throws), the jp2a outcome, and the
`saveRequested`/`isPaused` readings after the progress bar. -/
structure IterEnv where
  fetcherFound : Bool
  fetchResult : Option SlideImage
  skipAfterFetch : Bool
  downloadOk : Bool
  renderOutcome : RenderOutcome
  skipAfterDownload : Bool
  saveRequestedAtEnd : Bool
  pausedAtEnd : Bool
deriving Repr

/-- Embedding of `ImageProcessor.displayImage` restricted to its jp2a block:
the actions performed and the exception (if any) it rethrows, tagged with
whether its message contains "jp2a failed".  On any failure of the block the
catch displays the centered error panel (`displayErrorMessage`) and
rethrows. -/
def displayImageModel (r : RenderOutcome) : List Event × Option Bool :=
  match r with
  | RenderOutcome.ok => ([Event.renderCall], none)
  | RenderOutcome.jp2aFail =>
    ([Event.renderCall, Event.errorPanel], some true)
  | RenderOutcome.otherFail =>
    ([Event.renderCall, Event.errorPanel], some false)

/-- The `try` body of one `while (this.isRunning)` pass of `TTYSlide.run`:
the emitted actions, and `true` when an exception escapes to the outer
catch.  Mirrors the source order: start Fetching spinner; unknown source or
null fetch result log and sleep 5000 then `continue`; skip check; start the
(ineffective) Downloading spinner call; download; skip check; start the
Converting spinner call; stop spinner, clear screen, show header; display;
on a "jp2a failed" error warn, sleep 3000, `continue`; otherwise caption,
default save, progress bar, requested save, and the end-of-iteration clear
when not paused. -/
def runIterationBody (cfg : ConfigModel) (env : IterEnv) : List Event × Bool :=
  let e0 := [Event.spinnerStartCall "Fetching image..."]
  if !env.fetcherFound then
    (e0 ++ [Event.spinnerStop, Event.logError, Event.sleepMs 5000], false)
  else
    match env.fetchResult with
    | none =>
      (e0 ++ [Event.spinnerStop, Event.logWarn, Event.sleepMs 5000], false)
    | some _ =>
      if env.skipAfterFetch then (e0 ++ [Event.spinnerStop], false)
      else
        let e1 := e0 ++ [Event.spinnerStartCall "Downloading image..."]
        if !env.downloadOk then (e1, true)
        else if env.skipAfterDownload then (e1 ++ [Event.spinnerStop], false)
        else
          let e2 := e1 ++ [Event.spinnerStartCall "Converting to ASCII art..."]
          let e3 := e2 ++ [Event.spinnerStop, Event.clearScreen,
                           Event.headerShown]
          let dm := displayImageModel env.renderOutcome
          let e4 := e3 ++ dm.1
          match dm.2 with
          | some true =>
            (e4 ++ [Event.spinnerStop, Event.logWarn, Event.sleepMs 3000],
             false)
          | some false =>
            (e4 ++ [Event.spinnerStop], true)
          | none =>
            let e5 := e4 ++ (if cfg.caption then [Event.captionShown] else [])
            let e6 := e5 ++ (if !cfg.noSave then [Event.saveCall] else [])
            let e7 := e6 ++ [Event.progressBar]
            let e8 := e7 ++
              (if env.saveRequestedAtEnd then [Event.saveCall] else [])
            let e9 := e8 ++
              (if !env.pausedAtEnd then
                [Event.clearScreen, Event.headerShown] else [])
            (e9, false)

/-- One full main-loop iteration: the try body plus the outer catch
(`LoadingAnimation.stop(); Logger.error; sleep 5000`) when the body threw.
The iteration always finishes, after which the loop returns to the Fetching
phase. -/
def runIteration (cfg : ConfigModel) (env : IterEnv) : List Event :=
  let body := runIterationBody cfg env
  if body.2 then
    body.1 ++ [Event.spinnerStop, Event.logError, Event.sleepMs 5000]
  else body.1

/-! ## Theorems -/

/-- When every attempt fails, `retryGo` started at attempt `a` with the loop
bound `a + k` runs all `k + 1` remaining attempts, takes the backoff delays
of attempts `a, a+1, ..., a+k-1`, and returns `none`. -/
lemma retryGo_allFail {α : Type} (outcomes : Nat → Option α)
    (hfail : ∀ a, outcomes a = none) :
    ∀ k a, retryGo outcomes (a + k) a (k + 1) =
      { result := none, attempts := k + 1,
        delays := (List.range k).map (fun i => backoffDelay (a + i)) } := by
  intro k
  induction k with
  | zero => intro a; simp [retryGo, hfail a]
  | succ n ih =>
    intro a
    have hne : a ≠ a + (n + 1) := by omega
    have harg : a + (n + 1) = (a + 1) + n := by omega
    rw [retryGo, hfail a]
    simp only [hne, if_false]
    rw [harg, ih (a + 1)]
    simp [List.range_succ_eq_map, Function.comp]
    intro i _
    congr 1
    omega

/-- Any delay recorded at position `i` of a `retryGo` trace that started at
attempt `a` is the backoff delay of attempt `a + i`. -/
lemma retryGo_delays_get {α : Type} (outcomes : Nat → Option α) (m : Nat) :
    ∀ fuel a i d, ((retryGo outcomes m a fuel).delays.get? i = some d) →
      d = backoffDelay (a + i) := by
  intro fuel
  induction fuel with
  | zero => intro a i d h; simp [retryGo] at h
  | succ n ih =>
    intro a i d h
    rw [retryGo] at h
    cases houts : outcomes a with
    | some v => rw [houts] at h; simp at h
    | none =>
      rw [houts] at h
      by_cases hm : a = m
      · simp [hm] at h
      · simp only [hm, if_false] at h
        cases i with
        | zero =>
          simp at h
          rw [Nat.add_zero]
          exact h.symm
        | succ j =>
          simp only [List.get?_cons_succ] at h
          have := ih (a + 1) j d h
          rw [this]
          congr 1
          omega

/-- C1.  With `maxRetries >= 1` and an operation failing on every attempt,
the retry loop of `WaifuFetcher.fetchRandomImage` /
`PexelsFetcher.fetchRandomImage` performs exactly `maxRetries` attempts,
takes exactly `maxRetries - 1` inter-attempt delays, and returns `none`
(the embedded `null`); the embedding is a total function of the attempt
oracle, reflecting that the catch block swallows every attempt exception
rather than propagating it. -/
theorem fetchRandomImageLoop_exhausts_retries {α : Type}
    (outcomes : Nat → Option α) (maxRetries : Nat)
    (hmr : 1 ≤ maxRetries) (hfail : ∀ a, outcomes a = none) :
    (fetchRandomImageLoop outcomes maxRetries).result = none ∧
    (fetchRandomImageLoop outcomes maxRetries).attempts = maxRetries ∧
    (fetchRandomImageLoop outcomes maxRetries).delays.length =
      maxRetries - 1 := by
  obtain ⟨k, rfl⟩ : ∃ k, maxRetries = 1 + k := ⟨maxRetries - 1, by omega⟩
  unfold fetchRandomImageLoop
  have h := retryGo_allFail outcomes hfail k 1
  rw [show 1 + k = k + 1 from by omega] at h ⊢
  rw [h]
  simp

/-- Witness for C1 at `maxRetries = 3`: 3 attempts, 2 delays, null result. -/
theorem fetchRandomImageLoop_exhausts_retries_witness :
    (fetchRandomImageLoop (fun _ => (none : Option Nat)) 3).result = none ∧
    (fetchRandomImageLoop (fun _ => (none : Option Nat)) 3).attempts = 3 ∧
    (fetchRandomImageLoop (fun _ => (none : Option Nat)) 3).delays.length =
      2 :=
  fetchRandomImageLoop_exhausts_retries (fun _ => none) 3 (by decide)
    (fun _ => rfl)

/-- C2.  The delay taken before retrying after the 1-indexed attempt `n`
(recorded at position `n - 1` of the trace) is `min(1000 * 2^(n-1), 10000)`
milliseconds, and attempts 1 through 6 yield 1000, 2000, 4000, 8000, 10000,
10000 ms. -/
theorem retry_delay_is_capped_backoff {α : Type} (outcomes : Nat → Option α)
    (maxRetries n d : Nat) (hn : 1 ≤ n)
    (h : (fetchRandomImageLoop outcomes maxRetries).delays.get? (n - 1) =
      some d) :
    d = min (1000 * 2 ^ (n - 1)) 10000 ∧
    [backoffDelay 1, backoffDelay 2, backoffDelay 3, backoffDelay 4,
     backoffDelay 5, backoffDelay 6] =
      [1000, 2000, 4000, 8000, 10000, 10000] := by
  refine ⟨?_, by decide⟩
  have hd := retryGo_delays_get outcomes maxRetries maxRetries 1 (n - 1) d h
  rw [hd, show 1 + (n - 1) = n from by omega]
  rfl

/-- Witness for C2: the first delay of an all-failing run with
`maxRetries = 3` is 1000 ms, matching the formula at attempt 1. -/
theorem retry_delay_is_capped_backoff_witness :
    (fetchRandomImageLoop (fun _ => (none : Option Nat)) 3).delays.get? 0 =
      some 1000 ∧ 1000 = min (1000 * 2 ^ 0) 10000 :=
  ⟨by decide,
   (retry_delay_is_capped_backoff (fun _ => (none : Option Nat)) 3 1 1000
     (by decide) (by decide)).1⟩

/-- C3.  On every buffer shape the read loop can produce (at most 3 bytes),
`parseKeyPress` computes exactly the mapping stated by the claim
(`claimKeyMap`): the five named single bytes, lowercase characters for other
printable single bytes, the four arrow sequences `27,91,X`, and no match for
everything else, including `27,91,90`. -/
theorem parseKeyPress_matches_claim (buffer : List Nat)
    (hlen : buffer.length ≤ 3) :
    parseKeyPress buffer = claimKeyMap buffer := by
  match buffer with
  | [] => rfl
  | [b0] => rfl
  | [b0, b1] => rfl
  | [b0, b1, b2] => rfl
  | b0 :: b1 :: b2 :: b3 :: rest => simp at hlen

/-- Witness for C3 at the concrete buffers named by the claim. -/
theorem parseKeyPress_matches_claim_witness :
    parseKeyPress [27, 91, 67] = claimKeyMap [27, 91, 67] ∧
    parseKeyPress [27, 91, 67] = some "arrow-right" ∧
    parseKeyPress [32] = some "space" ∧
    parseKeyPress [65] = some "a" ∧
    parseKeyPress [27, 91, 90] = none :=
  ⟨parseKeyPress_matches_claim [27, 91, 67] (by decide), by decide,
   by decide, by decide, by decide⟩

/-- C4.  For every terminal size, the sizing computation of `displayImage`
uses `availableHeight = max(10, rows - 3)` and
`availableWidth = max(40, columns - 4)` and selects the height-constrained
mode with value `availableHeight` exactly when
`availableWidth / availableHeight > 2.5`, otherwise the width-constrained
mode with value `availableWidth`; in particular (200, 50) gives mode height
with value 47 and (80, 40) gives mode width with value 76. -/
theorem displaySizing_matches_claim (columns rows : Nat) :
    displaySizing columns rows =
      (if (2.5 : ℚ) <
          ((max 40 (columns - 4) : Nat) : ℚ) / ((max 10 (rows - 3) : Nat) : ℚ)
       then (SizeMode.byHeight, max 10 (rows - 3))
       else (SizeMode.byWidth, max 40 (columns - 4))) ∧
    displaySizing 200 50 = (SizeMode.byHeight, 47) ∧
    displaySizing 80 40 = (SizeMode.byWidth, 76) := by
  refine ⟨?_, by decide, by decide⟩
  simp only [displaySizing]
  refine if_congr ?_ rfl rfl
  set A := max 10 (rows - 3) with hA
  set B := max 40 (columns - 4) with hB
  have hpos : (0 : ℚ) < (A : ℚ) := by
    have : 0 < A := by rw [hA]; omega
    exact_mod_cast this
  rw [lt_div_iff₀ hpos]
  constructor
  · intro h
    have hq : ((5 * A : Nat) : ℚ) < ((2 * B : Nat) : ℚ) := by exact_mod_cast h
    push_cast at hq
    linarith
  · intro h
    have hq : ((5 * A : Nat) : ℚ) < ((2 * B : Nat) : ℚ) := by
      push_cast
      linarith
    exact_mod_cast hq

/-- C9.  Starting the spinner while it is already running (with its one live
timer) is a no-op: the state is unchanged, so the frame index is untouched
and exactly one timer remains. -/
theorem loadingAnimation_start_idempotent (s : AnimState) (msg : String)
    (hrun : s.isRunning = true) (htimer : s.timers = 1) :
    LoadingAnimation.start msg s = s ∧
    (LoadingAnimation.start msg s).timers = 1 ∧
    (LoadingAnimation.start msg s).currentFrame = s.currentFrame := by
  have h1 : LoadingAnimation.start msg s = s := by
    simp [LoadingAnimation.start, hrun]
  exact ⟨h1, by rw [h1, htimer], by rw [h1]⟩

/-- Witness for C9: a second start call on the freshly started spinner. -/
theorem loadingAnimation_start_idempotent_witness :
    LoadingAnimation.start "Downloading image..."
        (LoadingAnimation.start "Fetching image..." LoadingAnimation.init) =
      LoadingAnimation.start "Fetching image..." LoadingAnimation.init ∧
    (LoadingAnimation.start "Downloading image..."
        (LoadingAnimation.start "Fetching image..."
          LoadingAnimation.init)).timers = 1 ∧
    (LoadingAnimation.start "Downloading image..."
        (LoadingAnimation.start "Fetching image..."
          LoadingAnimation.init)).currentFrame =
      (LoadingAnimation.start "Fetching image..."
        LoadingAnimation.init).currentFrame :=
  loadingAnimation_start_idempotent _ "Downloading image..." (by decide)
    (by decide)

/-- C7 (code bug).  Entering the Downloading phase does not change the
spinner message: `run` calls `LoadingAnimation.start("Downloading image...")`
while the spinner started for Fetching is still running, and `start` returns
immediately when `isRunning` is set, so the interval closure keeps the
captured "Fetching image..." text; `updateMessage` is a stub that changes
nothing.  This contradicts the source's own comment at the call site
("Update loading message for download phase"). -/
theorem downloading_spinner_message_never_updates :
    (LoadingAnimation.start "Downloading image..."
        (LoadingAnimation.start "Fetching image..."
          LoadingAnimation.init)).message = "Fetching image..." ∧
    (LoadingAnimation.start "Downloading image..."
        (LoadingAnimation.start "Fetching image..."
          LoadingAnimation.init)).message ≠ "Downloading image..." ∧
    ∀ (msg : String) (s : AnimState),
      LoadingAnimation.updateMessage msg s = s :=
  ⟨by decide, by decide, fun _ _ => rfl⟩

/-- `mkdirRec` never touches the saved files. -/
lemma mkdirRec_files (d : String) (fs : FileSystem) :
    (mkdirRec d fs).files = fs.files := by
  unfold mkdirRec
  split <;> rfl

/-- After `mkdirRec d`, the directory `d` exists. -/
lemma mkdirRec_mem_dirs (d : String) (fs : FileSystem) :
    (mkdirRec d fs).dirs.contains d = true := by
  unfold mkdirRec
  split <;> simp_all

/-- `mkdirRec` on an existing directory is the identity. -/
lemma mkdirRec_of_contains (d : String) (fs : FileSystem)
    (h : fs.dirs.contains d = true) : mkdirRec d fs = fs := by
  unfold mkdirRec
  rw [if_pos h]

/-- Unfolded form of `saveImage`. -/
lemma saveImage_eq (buffer : List Nat) (img : SlideImage)
    (outputDir : String) (now : Nat) (fs : FileSystem) :
    saveImage buffer img outputDir now fs =
      if ((mkdirRec (computeFullDir img outputDir now) fs).files.lookup
          (computeSavePath img outputDir now)).isSome then
        mkdirRec (computeFullDir img outputDir now) fs
      else
        { files := (computeSavePath img outputDir now, buffer) ::
            (mkdirRec (computeFullDir img outputDir now) fs).files,
          dirs := (mkdirRec (computeFullDir img outputDir now) fs).dirs } :=
  rfl

/-- C8.  `saveImage` never overwrites: when a file already exists at the
computed destination path, the saved files are left exactly as they were (in
particular that file keeps its contents); and calling `saveImage` twice with
the same arguments leaves the file system in the same state as calling it
once. -/
theorem saveImage_no_overwrite_and_idempotent (buffer : List Nat)
    (img : SlideImage) (outputDir : String) (now : Nat) (fs : FileSystem) :
    (∀ c, fs.files.lookup (computeSavePath img outputDir now) = some c →
      (saveImage buffer img outputDir now fs).files = fs.files ∧
      (saveImage buffer img outputDir now fs).files.lookup
        (computeSavePath img outputDir now) = some c) ∧
    saveImage buffer img outputDir now
        (saveImage buffer img outputDir now fs) =
      saveImage buffer img outputDir now fs := by
  constructor
  · intro c hc
    rw [saveImage_eq, mkdirRec_files, hc]
    simp [mkdirRec_files, hc]
  · by_cases hl :
        (fs.files.lookup (computeSavePath img outputDir now)).isSome = true
    · have h1 : saveImage buffer img outputDir now fs =
          mkdirRec (computeFullDir img outputDir now) fs := by
        rw [saveImage_eq, mkdirRec_files]
        simp [hl]
      rw [h1, saveImage_eq,
        mkdirRec_of_contains _ _ (mkdirRec_mem_dirs _ _), mkdirRec_files]
      simp [hl]
    · have h1 : saveImage buffer img outputDir now fs =
          { files := (computeSavePath img outputDir now, buffer) :: fs.files,
            dirs :=
              (mkdirRec (computeFullDir img outputDir now) fs).dirs } := by
        rw [saveImage_eq, mkdirRec_files]
        simp [hl]
      rw [h1, saveImage_eq]
      have hd :
          ({ files := (computeSavePath img outputDir now, buffer) :: fs.files,
             dirs :=
               (mkdirRec (computeFullDir img outputDir now) fs).dirs } :
            FileSystem).dirs.contains (computeFullDir img outputDir now) =
            true :=
        mkdirRec_mem_dirs _ _
      rw [mkdirRec_of_contains _ _ hd]
      simp [List.lookup]

/-- Witness for C8 at a concrete pexels image whose artifact already
exists. -/
theorem saveImage_no_overwrite_witness :
    (saveImage [2, 2]
        { url := "http://x/a.jpg", source := "pexels" } "out" 0
        { files := [("out/pexels/a.jpg", [1])],
          dirs := ["out/pexels"] }).files =
      [("out/pexels/a.jpg", [1])] ∧
    saveImage [2, 2] { url := "http://x/a.jpg", source := "pexels" } "out" 0
        (saveImage [2, 2] { url := "http://x/a.jpg", source := "pexels" }
          "out" 0
          { files := [("out/pexels/a.jpg", [1])], dirs := ["out/pexels"] }) =
      saveImage [2, 2] { url := "http://x/a.jpg", source := "pexels" } "out" 0
        { files := [("out/pexels/a.jpg", [1])], dirs := ["out/pexels"] } :=
  ⟨((saveImage_no_overwrite_and_idempotent [2, 2]
      { url := "http://x/a.jpg", source := "pexels" } "out" 0
      { files := [("out/pexels/a.jpg", [1])],
        dirs := ["out/pexels"] }).1 [1] (by decide)).1,
   (saveImage_no_overwrite_and_idempotent [2, 2]
      { url := "http://x/a.jpg", source := "pexels" } "out" 0
      { files := [("out/pexels/a.jpg", [1])], dirs := ["out/pexels"] }).2⟩

/-- `jsSplitSpace` always returns at least one segment, like JS
`split(" ")`. -/
lemma jsSplitSpace_ne_nil (l : List Char) : jsSplitSpace l ≠ [] := by
  cases l with
  | nil => simp [jsSplitSpace]
  | cons c cs =>
    unfold jsSplitSpace
    by_cases hc : c = ' '
    · simp [hc]
    · simp only [hc, if_false]
      split <;> simp

/-- Splitting a concatenation around a space splits each side. -/
lemma jsSplitSpace_append (a b : List Char) :
    jsSplitSpace (a ++ ' ' :: b) = jsSplitSpace a ++ jsSplitSpace b := by
  induction a with
  | nil => simp [jsSplitSpace]
  | cons c cs ih =>
    by_cases hc : c = ' '
    · subst hc
      simp only [List.cons_append]
      rw [jsSplitSpace, jsSplitSpace, if_pos rfl, if_pos rfl, ih]
      rfl
    · cases hcs : jsSplitSpace cs with
      | nil => exact absurd hcs (jsSplitSpace_ne_nil cs)
      | cons w ws =>
        simp only [List.cons_append]
        rw [jsSplitSpace, jsSplitSpace, if_neg hc, if_neg hc, ih, hcs]
        rfl

/-- No segment returned by `jsSplitSpace` contains a space. -/
lemma jsSplitSpace_no_space (l : List Char) :
    ∀ w ∈ jsSplitSpace l, ' ' ∉ w := by
  induction l with
  | nil => simp [jsSplitSpace]
  | cons c cs ih =>
    by_cases hc : c = ' '
    · subst hc
      rw [jsSplitSpace, if_pos rfl]
      intro w hw
      rcases List.mem_cons.mp hw with rfl | hw2
      · simp
      · exact ih w hw2
    · cases hcs : jsSplitSpace cs with
      | nil => exact absurd hcs (jsSplitSpace_ne_nil cs)
      | cons v vs =>
        rw [jsSplitSpace, if_neg hc, hcs]
        intro w hw
        rcases List.mem_cons.mp hw with rfl | hw2
        · intro hsp
          rcases List.mem_cons.mp hsp with h1 | h2
          · exact hc h1.symm
          · exact ih v (by rw [hcs]; exact List.mem_cons_self v vs) h2
        · exact ih w (by rw [hcs]; exact List.mem_cons_of_mem v hw2)

/-- A space-free segment splits to itself. -/
lemma jsSplitSpace_of_no_space (w : List Char) (h : ' ' ∉ w) :
    jsSplitSpace w = [w] := by
  induction w with
  | nil => rfl
  | cons c cs ih =>
    have hc : c ≠ ' ' := fun e => h (e ▸ List.mem_cons_self c cs)
    have hcs : ' ' ∉ cs := fun hm => h (List.mem_cons_of_mem c hm)
    rw [jsSplitSpace, if_neg (fun e => hc e), ih hcs]

/-- The words of the lines produced by the `wrapText` loop are the already
pushed words, the pending `currentLine`, and the remaining words — provided
every remaining word is non-empty (and space-free, as `split(" ")` segments
are). -/
lemma wrapLoop_bind (width : Nat) :
    ∀ (ws lines : List (List Char)) (cur : List Char),
      (∀ w ∈ ws, w ≠ [] ∧ ' ' ∉ w) →
      (wrapLoop width ws lines cur).flatMap jsSplitSpace =
        lines.flatMap jsSplitSpace ++
          (if cur = [] then [] else jsSplitSpace cur) ++ ws := by
  intro ws
  induction ws with
  | nil =>
    intro lines cur _
    unfold wrapLoop
    by_cases hcur : cur = [] <;> simp [hcur]
  | cons w ws ih =>
    intro lines cur hws
    have hwne : w ≠ [] := (hws w (List.mem_cons_self w ws)).1
    have hwns : ' ' ∉ w := (hws w (List.mem_cons_self w ws)).2
    have hws2 : ∀ v ∈ ws, v ≠ [] ∧ ' ' ∉ v :=
      fun v hv => hws v (List.mem_cons_of_mem w hv)
    have hwsplit : jsSplitSpace w = [w] := jsSplitSpace_of_no_space w hwns
    unfold wrapLoop
    by_cases hle : (cur ++ ' ' :: w).length ≤ width
    · rw [if_pos hle]
      by_cases hcur : cur = []
      · subst hcur
        rw [if_pos rfl, ih _ _ hws2]
        simp [hwne, hwsplit]
      · rw [if_neg hcur, ih _ _ hws2]
        have hne2 : cur ++ ' ' :: w ≠ [] := by simp
        rw [if_neg hne2, if_neg hcur, jsSplitSpace_append,
          jsSplitSpace_of_no_space w hwns]
        simp
    · rw [if_neg hle]
      by_cases hcur : cur = []
      · subst hcur
        rw [if_pos rfl, ih _ _ hws2]
        simp [hwne, hwsplit]
      · rw [if_neg hcur, ih _ _ hws2]
        rw [if_neg hcur, if_neg hwne]
        simp [hwsplit]

/-- Every line ever pushed by the `wrapText` loop is non-empty. -/
lemma wrapLoop_ne_nil (width : Nat) :
    ∀ (ws lines : List (List Char)) (cur : List Char),
      (∀ l ∈ lines, l ≠ []) →
      ∀ l ∈ wrapLoop width ws lines cur, l ≠ [] := by
  intro ws
  induction ws with
  | nil =>
    intro lines cur hl l hmem
    unfold wrapLoop at hmem
    by_cases hcur : cur = []
    · rw [if_pos hcur] at hmem
      exact hl l hmem
    · rw [if_neg hcur] at hmem
      rcases List.mem_append.mp hmem with h | h
      · exact hl l h
      · rw [List.mem_singleton.mp h]
        exact hcur
  | cons w ws ih =>
    intro lines cur hl l hmem
    unfold wrapLoop at hmem
    by_cases hle : (cur ++ ' ' :: w).length ≤ width
    · rw [if_pos hle] at hmem
      exact ih lines _ hl l hmem
    · rw [if_neg hle] at hmem
      refine ih _ w ?_ l hmem
      by_cases hcur : cur = []
      · rw [if_pos hcur]
        exact hl
      · rw [if_neg hcur]
        intro v hv
        rcases List.mem_append.mp hv with h | h
        · exact hl v h
        · rw [List.mem_singleton.mp h]
          exact hcur

/-- C10 counterexample.  On a text with a leading space the wrapper drops
the empty first word: `wrapText " a"` returns `["a"]`, whose word sequence
differs from the input's (`["", "a"]`).  This refutes word preservation for
every input as stated by the claim. -/
theorem wrapText_drops_empty_words :
    wrapText [' ', 'a'] 5 = [['a']] ∧
    jsSplitSpace [' ', 'a'] = [[], ['a']] ∧
    (wrapText [' ', 'a'] 5).flatMap jsSplitSpace ≠ jsSplitSpace [' ', 'a'] := by
  decide

/-- C10 (amended).  For every input text all of whose space-separated words
are non-empty (no leading, trailing, or consecutive spaces), `wrapText`
preserves every word in order — the words of the returned lines are exactly
the words of the input; and for every input whatsoever no returned line is
empty. -/
theorem wrapText_preserves_nonempty_words (text : List Char) (width : Nat) :
    ((∀ w ∈ jsSplitSpace text, w ≠ []) →
      (wrapText text width).flatMap jsSplitSpace = jsSplitSpace text) ∧
    ∀ l ∈ wrapText text width, l ≠ [] := by
  constructor
  · intro h
    unfold wrapText
    rw [wrapLoop_bind width _ [] []
      (fun w hw => ⟨h w hw, jsSplitSpace_no_space text w hw⟩)]
    simp
  · exact wrapLoop_ne_nil width _ [] [] (by simp)

/-- Witness for C10 at the two-word text "ab cd" wrapped to width 3. -/
theorem wrapText_preserves_nonempty_words_witness :
    (wrapText ['a', 'b', ' ', 'c', 'd'] 3).flatMap jsSplitSpace =
      jsSplitSpace ['a', 'b', ' ', 'c', 'd'] ∧
    ∀ l ∈ wrapText ['a', 'b', ' ', 'c', 'd'] 3, l ≠ [] :=
  ⟨(wrapText_preserves_nonempty_words ['a', 'b', ' ', 'c', 'd'] 3).1
    (by decide),
   (wrapText_preserves_nonempty_words ['a', 'b', ' ', 'c', 'd'] 3).2⟩

/-- When the outer while condition has failed, the progress-bar loop
exits. -/
lemma pbStep_outer_done (p : Nat → Bool) (T : Nat) (s : PBState)
    (hph : s.phase = PBPhase.outer) (hcu : T < s.currentUpdate) :
    pbStep p T s = none := by
  rcases s with ⟨ph, cu, t, dr, sl, ad⟩
  simp only at hcu
  cases ph with
  | outer =>
    simp [pbStep]
    intro h
    exact absurd h (by omega)
  | inner => simp at hph

/-- An unpaused outer pass that is not the final one: draw, advance the
counter, sleep 100ms. -/
lemma pbStep_outer_advance_sleep (p : Nat → Bool) (T : Nat) (s : PBState)
    (hph : s.phase = PBPhase.outer) (hcu : s.currentUpdate ≤ T)
    (hp : p (s.time + 1) = false) (h2 : s.currentUpdate + 1 ≤ T) :
    pbStep p T s = some
      { phase := PBPhase.outer, currentUpdate := s.currentUpdate + 1,
        time := s.time + 1 + 1,
        draws := s.draws ++ [(s.currentUpdate, p s.time)],
        sleeps := s.sleeps + 1, advances := s.advances + 1 } := by
  rcases s with ⟨ph, cu, t, dr, sl, ad⟩
  cases ph with
  | outer => simp [pbStep, hcu, hp, h2]
  | inner => simp at hph

/-- The final unpaused outer pass: draw, advance the counter past
`totalUpdates`, no sleep. -/
lemma pbStep_outer_advance_last (p : Nat → Bool) (T : Nat) (s : PBState)
    (hph : s.phase = PBPhase.outer) (hcu : s.currentUpdate ≤ T)
    (hp : p (s.time + 1) = false) (h2 : ¬s.currentUpdate + 1 ≤ T) :
    pbStep p T s = some
      { phase := PBPhase.outer, currentUpdate := s.currentUpdate + 1,
        time := s.time + 1,
        draws := s.draws ++ [(s.currentUpdate, p s.time)],
        sleeps := s.sleeps, advances := s.advances + 1 } := by
  rcases s with ⟨ph, cu, t, dr, sl, ad⟩
  cases ph with
  | outer => simp [pbStep, hcu, hp, h2]
  | inner => simp at hph

/-- An outer pass that observes the pause flag after drawing: enter the
pause-wait loop without advancing the counter. -/
lemma pbStep_outer_pause (p : Nat → Bool) (T : Nat) (s : PBState)
    (hph : s.phase = PBPhase.outer) (hcu : s.currentUpdate ≤ T)
    (hp : p (s.time + 1) = true) :
    pbStep p T s = some
      { phase := PBPhase.inner, currentUpdate := s.currentUpdate,
        time := s.time + 1,
        draws := s.draws ++ [(s.currentUpdate, p s.time)],
        sleeps := s.sleeps, advances := s.advances } := by
  rcases s with ⟨ph, cu, t, dr, sl, ad⟩
  cases ph with
  | outer => simp [pbStep, hcu, hp]
  | inner => simp at hph

/-- While paused, a pause-wait tick sleeps but does not touch the
counter. -/
lemma pbStep_inner_paused (p : Nat → Bool) (T : Nat) (s : PBState)
    (hph : s.phase = PBPhase.inner) (hp : p s.time = true) :
    pbStep p T s =
      some { s with time := s.time + 1, sleeps := s.sleeps + 1 } := by
  rcases s with ⟨ph, cu, t, dr, sl, ad⟩
  cases ph with
  | outer => simp at hph
  | inner => simp [pbStep, hp]

/-- When unpaused, the pause-wait loop exits back to the outer loop with the
counter unchanged. -/
lemma pbStep_inner_resume (p : Nat → Bool) (T : Nat) (s : PBState)
    (hph : s.phase = PBPhase.inner) (hp : p s.time = false) :
    pbStep p T s = some { s with phase := PBPhase.outer } := by
  rcases s with ⟨ph, cu, t, dr, sl, ad⟩
  cases ph with
  | outer => simp at hph
  | inner => simp [pbStep, hp]

/-- A step only ever draws counter values that are at most
`totalUpdates`. -/
lemma pbStep_draws_le (p : Nat → Bool) (T : Nat) (s s2 : PBState)
    (hstep : pbStep p T s = some s2) (hd : ∀ x ∈ s.draws, x.1 ≤ T) :
    ∀ x ∈ s2.draws, x.1 ≤ T := by
  rcases s with ⟨ph, cu, t, dr, sl, ad⟩
  cases ph with
  | outer =>
    simp only [pbStep] at hstep
    split_ifs at hstep with h1 h2 h3
    · cases hstep
      intro x hx
      rcases List.mem_append.mp hx with h | h
      · exact hd x h
      · rw [List.mem_singleton.mp h]
        exact h1
    · cases hstep
      intro x hx
      rcases List.mem_append.mp hx with h | h
      · exact hd x h
      · rw [List.mem_singleton.mp h]
        exact h1
    · cases hstep
      intro x hx
      rcases List.mem_append.mp hx with h | h
      · exact hd x h
      · rw [List.mem_singleton.mp h]
        exact h1
  | inner =>
    simp only [pbStep] at hstep
    split_ifs at hstep <;> cases hstep <;> exact hd

/-- Unfolding `pbRun` when the step loops. -/
lemma pbRun_succ_some (p : Nat → Bool) (T fuel : Nat) (s s2 : PBState)
    (h : pbStep p T s = some s2) :
    pbRun p T (fuel + 1) s = pbRun p T fuel s2 := by
  rw [pbRun, h]

/-- Unfolding `pbRun` when the step reports loop exit. -/
lemma pbRun_succ_none (p : Nat → Bool) (T fuel : Nat) (s : PBState)
    (h : pbStep p T s = none) :
    pbRun p T (fuel + 1) s = some s := by
  rw [pbRun, h]

/-- The drawn counter values stay at most `totalUpdates` along any run. -/
lemma pbRun_draws_le (p : Nat → Bool) (T : Nat) :
    ∀ (fuel : Nat) (s final : PBState), pbRun p T fuel s = some final →
      (∀ x ∈ s.draws, x.1 ≤ T) → ∀ x ∈ final.draws, x.1 ≤ T := by
  intro fuel
  induction fuel with
  | zero => intro s final h; simp [pbRun] at h
  | succ n ih =>
    intro s final h hd
    rw [pbRun] at h
    cases hstep : pbStep p T s with
    | none =>
      rw [hstep] at h
      cases h
      exact hd
    | some s2 =>
      rw [hstep] at h
      exact ih s2 final h (pbStep_draws_le p T s s2 hstep hd)

/-- Never-paused accounting: from an outer state with `k` counter advances
left (`currentUpdate + k = totalUpdates + 1`), the run terminates and makes
exactly `k` further advances and `k - 1` further 100ms sleeps. -/
lemma pbRun_neverPaused (T : Nat) :
    ∀ (k : Nat) (s : PBState) (fuel : Nat), s.phase = PBPhase.outer →
      s.currentUpdate + k = T + 1 → k + 1 ≤ fuel →
      ∃ final, pbRun (fun _ => false) T fuel s = some final ∧
        final.advances = s.advances + k ∧
        final.sleeps = s.sleeps + (k - 1) := by
  intro k
  induction k with
  | zero =>
    intro s fuel hph hcu hfuel
    cases fuel with
    | zero => omega
    | succ f =>
      rw [pbRun_succ_none _ _ _ _ (pbStep_outer_done _ T s hph (by omega))]
      exact ⟨s, rfl, by omega, by omega⟩
  | succ n ih =>
    intro s fuel hph hcu hfuel
    cases fuel with
    | zero => omega
    | succ f =>
      by_cases h2 : s.currentUpdate + 1 ≤ T
      · have hn1 : 1 ≤ n := by omega
        rw [pbRun_succ_some _ _ _ _ _
          (pbStep_outer_advance_sleep _ T s hph (by omega) rfl h2)]
        obtain ⟨final, hrun, ha, hs⟩ :=
          ih { phase := PBPhase.outer, currentUpdate := s.currentUpdate + 1,
               time := s.time + 1 + 1,
               draws := s.draws ++ [(s.currentUpdate, false)],
               sleeps := s.sleeps + 1, advances := s.advances + 1 }
            f rfl (by simp; omega) (by omega)
        refine ⟨final, hrun, ?_, ?_⟩
        · simp at ha
          omega
        · simp at hs
          omega
      · have hn0 : n = 0 := by omega
        subst hn0
        rw [pbRun_succ_some _ _ _ _ _
          (pbStep_outer_advance_last _ T s hph (by omega) rfl h2)]
        cases f with
        | zero => omega
        | succ f2 =>
          rw [pbRun_succ_none _ _ _ _
            (pbStep_outer_done _ T _ rfl (by simp; omega))]
          exact ⟨_, rfl, by simp, by simp⟩

/-- C5 counterexample.  With `intervalSeconds = 2` and never paused, the
loop guard `currentUpdate <= totalUpdates` runs the body for counter values
0 through 20 and increments each time, so the counter is advanced 21 times —
not `totalUpdates = 20` times as the claim states (the 100ms sleeps do
number 20). -/
theorem progressBar_counter_advances_exceed_totalUpdates :
    pbTotalUpdates 2 = 20 ∧
    (pbRun (fun _ => false) (pbTotalUpdates 2) 30 pbInit).map
        PBState.advances = some 21 ∧
    ¬(pbRun (fun _ => false) (pbTotalUpdates 2) 30 pbInit).map
        PBState.advances = some (pbTotalUpdates 2) := by
  refine ⟨by decide, by decide, by decide⟩

/-- C5 (amended).  The progress-bar loop uses
`totalUpdates = intervalSeconds * 1000 / 100` (20 for 2 seconds); when never
paused it terminates after advancing the counter exactly `totalUpdates + 1`
times with exactly `totalUpdates` 100ms sleeps; the counter value used to
draw the bar never exceeds `totalUpdates`; while paused, ticks fire (a sleep
per tick) but the counter does not advance across any number of ticks, and
once unpaused the loop resumes advancing from the same counter value. -/
theorem progressBar_tick_accounting :
    pbTotalUpdates 2 = 20 ∧
    (∀ T fuel, T + 2 ≤ fuel →
      ∃ final, pbRun (fun _ => false) T fuel pbInit = some final ∧
        final.advances = T + 1 ∧ final.sleeps = T) ∧
    (∀ (p : Nat → Bool) T fuel final, pbRun p T fuel pbInit = some final →
      ∀ x ∈ final.draws, x.1 ≤ T) ∧
    (∀ (p : Nat → Bool) T s, s.phase = PBPhase.inner → p s.time = true →
      pbStep p T s =
        some { s with time := s.time + 1, sleeps := s.sleeps + 1 }) ∧
    (∀ (p : Nat → Bool) T s, s.phase = PBPhase.inner → p s.time = false →
      pbStep p T s = some { s with phase := PBPhase.outer }) ∧
    (∀ (p : Nat → Bool) T s, s.phase = PBPhase.outer →
      s.currentUpdate ≤ T → p (s.time + 1) = true →
      ∃ s2, pbStep p T s = some s2 ∧ s2.phase = PBPhase.inner ∧
        s2.currentUpdate = s.currentUpdate ∧ s2.advances = s.advances) ∧
    (∀ (p : Nat → Bool) T s, s.phase = PBPhase.outer →
      s.currentUpdate ≤ T → p (s.time + 1) = false →
      ∃ s2, pbStep p T s = some s2 ∧
        s2.currentUpdate = s.currentUpdate + 1 ∧
        s2.advances = s.advances + 1) := by
  refine ⟨by decide, ?_, ?_, ?_, ?_, ?_, ?_⟩
  · intro T fuel hfuel
    obtain ⟨final, hrun, ha, hs⟩ :=
      pbRun_neverPaused T (T + 1) pbInit fuel rfl (by simp [pbInit])
        (by omega)
    refine ⟨final, hrun, ?_, ?_⟩
    · simp [pbInit] at ha
      omega
    · simp [pbInit] at hs
      omega
  · intro p T fuel final h
    exact pbRun_draws_le p T fuel pbInit final h (by simp [pbInit])
  · exact fun p T s h1 h2 => pbStep_inner_paused p T s h1 h2
  · exact fun p T s h1 h2 => pbStep_inner_resume p T s h1 h2
  · intro p T s h1 h2 h3
    exact ⟨_, pbStep_outer_pause p T s h1 h2 h3, rfl, rfl, rfl⟩
  · intro p T s h1 h2 h3
    by_cases h4 : s.currentUpdate + 1 ≤ T
    · exact ⟨_, pbStep_outer_advance_sleep p T s h1 h2 h3 h4, rfl, rfl⟩
    · exact ⟨_, pbStep_outer_advance_last p T s h1 h2 h3 h4, rfl, rfl⟩

/-- Witness for C5 (amended) at `totalUpdates = 5`, a paused tick, and an
unpaused advancing step. -/
theorem progressBar_tick_accounting_witness :
    (∃ final, pbRun (fun _ => false) 5 7 pbInit = some final ∧
      final.advances = 6 ∧ final.sleeps = 5) ∧
    pbStep (fun _ => true) 9
        { phase := PBPhase.inner, currentUpdate := 4, time := 11,
          draws := [], sleeps := 7, advances := 4 } =
      some { phase := PBPhase.inner, currentUpdate := 4, time := 12,
             draws := [], sleeps := 8, advances := 4 } ∧
    (∃ s2, pbStep (fun _ => false) 9
        { phase := PBPhase.outer, currentUpdate := 4, time := 11,
          draws := [], sleeps := 7, advances := 4 } = some s2 ∧
      s2.currentUpdate = 5 ∧ s2.advances = 5) := by
  refine ⟨?_, ?_, ?_⟩
  · exact progressBar_tick_accounting.2.1 5 7 (by omega)
  · have h := progressBar_tick_accounting.2.2.2.1 (fun _ => true) 9
      { phase := PBPhase.inner, currentUpdate := 4, time := 11,
        draws := [], sleeps := 7, advances := 4 } rfl rfl
    simpa using h
  · obtain ⟨s2, h1, h2, h3⟩ :=
      progressBar_tick_accounting.2.2.2.2.2.2 (fun _ => false) 9
        { phase := PBPhase.outer, currentUpdate := 4, time := 11,
          draws := [], sleeps := 7, advances := 4 } rfl (by decide) rfl
    exact ⟨s2, h1, by simpa using h2, by simpa using h3⟩

/-- C6.  In an iteration that reaches the renderer and gets a jp2a failure,
the controller shows the centered error panel, makes no persistence call,
sleeps the fixed 3 seconds and finishes the iteration normally (the error is
absorbed before the outer catch, the process does not exit), after which the
loop resumes at the Fetching phase. -/
theorem renderFailure_recovery (cfg : ConfigModel) (env : IterEnv)
    (img : SlideImage)
    (hff : env.fetcherFound = true)
    (hfr : env.fetchResult = some img)
    (hs1 : env.skipAfterFetch = false)
    (hdl : env.downloadOk = true)
    (hs2 : env.skipAfterDownload = false)
    (hro : env.renderOutcome = RenderOutcome.jp2aFail) :
    runIteration cfg env =
      [Event.spinnerStartCall "Fetching image...",
       Event.spinnerStartCall "Downloading image...",
       Event.spinnerStartCall "Converting to ASCII art...",
       Event.spinnerStop, Event.clearScreen, Event.headerShown,
       Event.renderCall, Event.errorPanel,
       Event.spinnerStop, Event.logWarn, Event.sleepMs 3000] ∧
    (runIterationBody cfg env).2 = false ∧
    Event.errorPanel ∈ runIteration cfg env ∧
    Event.saveCall ∉ runIteration cfg env ∧
    Event.sleepMs 3000 ∈ runIteration cfg env := by
  rcases env with ⟨ff, fr, s1, dok, ro, s2, sr, pe⟩
  simp only at hff hfr hs1 hdl hs2 hro
  subst hff
  subst hfr
  subst hs1
  subst hdl
  subst hs2
  subst hro
  have h1 : runIteration cfg
      ⟨true, some img, false, true, RenderOutcome.jp2aFail, false, sr, pe⟩ =
      [Event.spinnerStartCall "Fetching image...",
       Event.spinnerStartCall "Downloading image...",
       Event.spinnerStartCall "Converting to ASCII art...",
       Event.spinnerStop, Event.clearScreen, Event.headerShown,
       Event.renderCall, Event.errorPanel,
       Event.spinnerStop, Event.logWarn, Event.sleepMs 3000] := rfl
  refine ⟨h1, rfl, ?_, ?_, ?_⟩ <;> rw [h1] <;> decide

/-- Witness for C6 at a concrete configuration and environment. -/
theorem renderFailure_recovery_witness :
    runIteration { caption := true, noSave := false }
        { fetcherFound := true,
          fetchResult := some { url := "u", source := "waifu" },
          skipAfterFetch := false, downloadOk := true,
          renderOutcome := RenderOutcome.jp2aFail,
          skipAfterDownload := false, saveRequestedAtEnd := false,
          pausedAtEnd := false } =
      [Event.spinnerStartCall "Fetching image...",
       Event.spinnerStartCall "Downloading image...",
       Event.spinnerStartCall "Converting to ASCII art...",
       Event.spinnerStop, Event.clearScreen, Event.headerShown,
       Event.renderCall, Event.errorPanel,
       Event.spinnerStop, Event.logWarn, Event.sleepMs 3000] ∧
    Event.saveCall ∉ runIteration { caption := true, noSave := false }
        { fetcherFound := true,
          fetchResult := some { url := "u", source := "waifu" },
          skipAfterFetch := false, downloadOk := true,
          renderOutcome := RenderOutcome.jp2aFail,
          skipAfterDownload := false, saveRequestedAtEnd := false,
          pausedAtEnd := false } :=
  ⟨(renderFailure_recovery { caption := true, noSave := false }
      { fetcherFound := true,
        fetchResult := some { url := "u", source := "waifu" },
        skipAfterFetch := false, downloadOk := true,
        renderOutcome := RenderOutcome.jp2aFail,
        skipAfterDownload := false, saveRequestedAtEnd := false,
        pausedAtEnd := false }
      { url := "u", source := "waifu" } rfl rfl rfl rfl rfl rfl).1,
   (renderFailure_recovery { caption := true, noSave := false }
      { fetcherFound := true,
        fetchResult := some { url := "u", source := "waifu" },
        skipAfterFetch := false, downloadOk := true,
        renderOutcome := RenderOutcome.jp2aFail,
        skipAfterDownload := false, saveRequestedAtEnd := false,
        pausedAtEnd := false }
      { url := "u", source := "waifu" } rfl rfl rfl rfl rfl rfl).2.2.2.1⟩
